import Mathlib

/-!
Verification of the VMX domain computation module (vmx-domain.ts).

JavaScript numbers are modelled by `JSNum`: either an exact rational
(`fin q`) or one of the non-finite values NaN, +Infinity, -Infinity.
Arithmetic on finite values is exact rational arithmetic (an idealisation
of IEEE doubles without rounding or overflow); the propagation rules for
the non-finite values follow JavaScript semantics, as do the comparison
operators (every comparison involving NaN is false).
-/

inductive JSNum where
  | fin (q : ℚ)
  | nan
  | inf
  | negInf
deriving DecidableEq

namespace JSNum

/-- Mirrors JavaScript `Number.isFinite`. -/
def isFinite : JSNum → Bool
  | fin _ => true
  | _ => false

/-- JavaScript `<` (false whenever NaN is involved). -/
def lt : JSNum → JSNum → Bool
  | fin a, fin b => a < b
  | fin _, inf => true
  | negInf, fin _ => true
  | negInf, inf => true
  | _, _ => false

/-- JavaScript `<=` (false whenever NaN is involved). -/
def le : JSNum → JSNum → Bool
  | nan, _ => false
  | _, nan => false
  | fin a, fin b => a ≤ b
  | fin _, inf => true
  | fin _, negInf => false
  | inf, inf => true
  | inf, _ => false
  | negInf, _ => true

/-- JavaScript addition. -/
def add : JSNum → JSNum → JSNum
  | nan, _ => nan
  | _, nan => nan
  | fin a, fin b => fin (a + b)
  | fin _, inf => inf
  | inf, fin _ => inf
  | fin _, negInf => negInf
  | negInf, fin _ => negInf
  | inf, inf => inf
  | negInf, negInf => negInf
  | inf, negInf => nan
  | negInf, inf => nan

/-- JavaScript negation. -/
def neg : JSNum → JSNum
  | fin a => fin (-a)
  | nan => nan
  | inf => negInf
  | negInf => inf

/-- JavaScript subtraction. -/
def sub (a b : JSNum) : JSNum := a.add b.neg

/-- JavaScript multiplication (`Infinity * 0` is NaN). -/
def mul : JSNum → JSNum → JSNum
  | nan, _ => nan
  | _, nan => nan
  | fin a, fin b => fin (a * b)
  | fin a, inf => if 0 < a then inf else if a < 0 then negInf else nan
  | inf, fin a => if 0 < a then inf else if a < 0 then negInf else nan
  | fin a, negInf => if 0 < a then negInf else if a < 0 then inf else nan
  | negInf, fin a => if 0 < a then negInf else if a < 0 then inf else nan
  | inf, inf => inf
  | negInf, negInf => inf
  | inf, negInf => negInf
  | negInf, inf => negInf

/-- JavaScript division (division of a nonzero finite value by zero gives
a signed infinity, `0 / 0` gives NaN, infinities divided by each other
give NaN). -/
def div : JSNum → JSNum → JSNum
  | nan, _ => nan
  | _, nan => nan
  | fin a, fin b =>
      if b = 0 then (if 0 < a then inf else if a < 0 then negInf else nan)
      else fin (a / b)
  | fin _, inf => fin 0
  | fin _, negInf => fin 0
  | inf, fin b => if b < 0 then negInf else inf
  | negInf, fin b => if b < 0 then inf else negInf
  | inf, _ => nan
  | negInf, _ => nan

/-- JavaScript `Math.max` restricted to two arguments (NaN if either
argument is NaN). -/
def jmax (a b : JSNum) : JSNum :=
  if a = nan ∨ b = nan then nan else if lt a b then b else a

/-- JavaScript `Math.min` restricted to two arguments (NaN if either
argument is NaN). -/
def jmin (a b : JSNum) : JSNum :=
  if a = nan ∨ b = nan then nan else if lt b a then b else a

@[simp] theorem isFinite_fin (q : ℚ) : (fin q).isFinite = true := rfl

@[simp] theorem add_fin (a b : ℚ) : (fin a).add (fin b) = fin (a + b) := rfl

@[simp] theorem lt_fin (a b : ℚ) : (fin a).lt (fin b) = decide (a < b) := rfl

@[simp] theorem le_fin (a b : ℚ) : (fin a).le (fin b) = decide (a ≤ b) := rfl

theorem jmax_fin (a b : ℚ) : (fin a).jmax (fin b) = fin (max a b) := by
  unfold jmax
  rcases lt_or_le a b with h | h
  · simp [lt, h, max_eq_right h.le]
  · simp [lt, not_lt.mpr h, max_eq_left h]

theorem jmin_fin (a b : ℚ) : (fin a).jmin (fin b) = fin (min a b) := by
  unfold jmin
  rcases lt_or_le b a with h | h
  · simp [lt, h, min_eq_right h.le]
  · simp [lt, not_lt.mpr h, min_eq_left h]

theorem div_fin (a b : ℚ) (hb : b ≠ 0) : (fin a).div (fin b) = fin (a / b) := by
  simp [div, hb]

theorem add_not_finite_left (x y : JSNum) (hx : x.isFinite = false) :
    (x.add y).isFinite = false := by
  cases x <;> cases y <;> simp_all [add, isFinite]

theorem add_finite (x y : JSNum) (h : (x.add y).isFinite = true) :
    x.isFinite = true ∧ y.isFinite = true := by
  cases x <;> cases y <;> simp_all [add, isFinite]

end JSNum

/-!
Data model of vmx-domain.ts. Lists replace arrays; optional / possibly
malformed pieces of the input (the `targetRanges` collection and the
`categoryId` of a stored range, which the source guards with
`Array.isArray` and `!r || !r.categoryId`) are modelled with `Option`.
Thrown `Error`s become an `Except VmxError` result, one constructor per
distinct error message of the source.
-/

inductive VmxCategoryId where
  | FACILITATING
  | SUBSTRUCTURE
  | SUPERSTRUCTURE
  | INTERNAL_FINISHES
  | FF_E
  | SERVICES
  | EXTERNAL_WORKS
deriving DecidableEq

inductive HeatBand where
  | LOW
  | MEDIUM
  | HIGH
deriving DecidableEq

inductive RangeStatus where
  | OK
  | LOW
  | HIGH
deriving DecidableEq

structure CategoryDef where
  id : VmxCategoryId
  label : String
  sortOrder : Nat
deriving DecidableEq

def VMX_CATEGORIES : List CategoryDef := [
  { id := .FACILITATING, label := "Site Prep & Infrastructure", sortOrder := 1 },
  { id := .SUBSTRUCTURE, label := "Substructure", sortOrder := 2 },
  { id := .SUPERSTRUCTURE, label := "Shell", sortOrder := 3 },
  { id := .INTERNAL_FINISHES, label := "Interiors", sortOrder := 4 },
  { id := .FF_E, label := "Equipment & Furnishings", sortOrder := 5 },
  { id := .SERVICES, label := "Services (MEP)", sortOrder := 6 },
  { id := .EXTERNAL_WORKS, label := "Exterior Improvements", sortOrder := 7 }]

structure BenchmarkBand where
  categoryId : VmxCategoryId
  band : HeatBand
  psqft : JSNum
deriving DecidableEq

structure TargetRange where
  categoryId : Option VmxCategoryId
  minPct : JSNum
  maxPct : JSNum
deriving DecidableEq

structure BenchmarkSet where
  id : String
  name : String
  currency : String
  bands : List BenchmarkBand
  targetRanges : Option (List (Option TargetRange))
deriving DecidableEq

structure ScenarioSelection where
  categoryId : VmxCategoryId
  band : HeatBand
  overridePsqft : Option JSNum
deriving DecidableEq

structure CategoryResult where
  categoryId : VmxCategoryId
  label : String
  band : HeatBand
  psqftUsed : JSNum
  cost : JSNum
  pctOfTotal : JSNum
  targetMinPct : JSNum
  targetMaxPct : JSNum
  rangeStatus : RangeStatus
  isOutOfRange : Bool
deriving DecidableEq

structure ScenarioResult where
  areaSqft : JSNum
  currency : String
  totalCost : JSNum
  totalPsqft : JSNum
  categories : List CategoryResult
deriving DecidableEq

inductive VmxError where
  | invalidArea
  | missingSelection (categoryId : VmxCategoryId)
  | missingBand (categoryId : VmxCategoryId) (band : HeatBand)
  | nonPositiveTotal
deriving DecidableEq

/-- Source `clamp`: non-finite input collapses to `min`, otherwise
`Math.min(max, Math.max(min, n))`. -/
def clamp (n mn mx : JSNum) : JSNum :=
  if !n.isFinite then mn else JSNum.jmin mx (JSNum.jmax mn n)

/-- Source `safePct`: clamp to `[0, 1]`. -/
def safePct (n : JSNum) : JSNum := clamp n (.fin 0) (.fin 1)

/-- Source `ensureMinMax`: clamp both percentages, collapse to a
zero-width range at the clamped min when the clamped max is below it. -/
def ensureMinMax (minPct maxPct : JSNum) : JSNum × JSNum :=
  let mn := safePct minPct
  let mx := safePct maxPct
  if mx.lt mn then (mn, mn) else (mn, mx)

/-- Source `classifyRange`: three-way comparison with closed bounds. -/
def classifyRange (pct minPct maxPct : JSNum) : RangeStatus :=
  if pct.lt minPct then .LOW
  else if maxPct.lt pct then .HIGH
  else .OK

/-- The source's `benchmark.bands.find(b => b.categoryId === categoryId && b.band === band)`. -/
def findBand (benchmark : BenchmarkSet) (categoryId : VmxCategoryId) (band : HeatBand) :
    Option BenchmarkBand :=
  benchmark.bands.find? (fun b => b.categoryId == categoryId && b.band == band)

/-- Source `requireBand`: the found band, or the missing-band error. -/
def requireBand (benchmark : BenchmarkSet) (categoryId : VmxCategoryId) (band : HeatBand) :
    Except VmxError BenchmarkBand :=
  match findBand benchmark categoryId band with
  | none => .error (.missingBand categoryId band)
  | some b => .ok b

/-- Source `getMediumPsqftOrFallback`: the MEDIUM band's clamped psqft
when present and finite; otherwise the average of the clamped LOW/HIGH
values when both are present and finite, or whichever one is, or 0. -/
def getMediumPsqftOrFallback (benchmark : BenchmarkSet) (categoryId : VmxCategoryId) : JSNum :=
  let medOk : Option JSNum :=
    match findBand benchmark categoryId .MEDIUM with
    | some m => if m.psqft.isFinite then some (JSNum.jmax (.fin 0) m.psqft) else none
    | none => none
  match medOk with
  | some v => v
  | none =>
    let lowV : Option JSNum :=
      match findBand benchmark categoryId .LOW with
      | some b => if b.psqft.isFinite then some (JSNum.jmax (.fin 0) b.psqft) else none
      | none => none
    let highV : Option JSNum :=
      match findBand benchmark categoryId .HIGH with
      | some b => if b.psqft.isFinite then some (JSNum.jmax (.fin 0) b.psqft) else none
      | none => none
    match lowV, highV with
    | some l, some h => (l.add h).div (.fin 2)
    | some l, none => l
    | none, some h => h
    | none, none => .fin 0

/-- The accumulated `sum` of the loop in
`computeImpliedMediumAllocationShares`: representative psqft values
added up over the fixed category list. -/
def sumPsqft (benchmark : BenchmarkSet) : JSNum :=
  VMX_CATEGORIES.foldl (fun s cat => s.add (getMediumPsqftOrFallback benchmark cat.id)) (.fin 0)

/-- Source `computeImpliedMediumAllocationShares`: representative psqft
per category, summed; proportional shares, or the equal-weight fallback
when the sum is non-finite or non-positive. (The source also memoises
the per-category representative values in `psqftByCat`; here they are
recomputed by `getMediumPsqftOrFallback`, which is pure.) -/
def computeImpliedMediumAllocationShares (benchmark : BenchmarkSet) :
    VmxCategoryId → JSNum :=
  let sum : JSNum := sumPsqft benchmark
  if !sum.isFinite || JSNum.le sum (.fin 0) then
    fun _ => JSNum.div (.fin 1) (.fin (VMX_CATEGORIES.length))
  else
    fun cid => (getMediumPsqftOrFallback benchmark cid).div sum

structure TargetRangeDerivationOptions where
  relativeTolerance : Option JSNum
  minHalfWidthAbs : Option JSNum
  maxHalfWidthAbs : Option JSNum
deriving DecidableEq

/-- Source `deriveTargetRangesFromMedium`: one target range per VMX
category, centred on the clamped implied Medium share with a half-width
of `clamp(max(minHalfWidthAbs, center * relativeTolerance), 0, maxHalfWidthAbs)`,
then normalised by `ensureMinMax`. Defaults: 0.2 / 0.01 / 0.06. -/
def deriveTargetRangesFromMedium (benchmark : BenchmarkSet)
    (opts : Option TargetRangeDerivationOptions) : List TargetRange :=
  let relativeTolerance :=
    clamp ((opts.bind (·.relativeTolerance)).getD (.fin (1/5))) (.fin 0) (.fin 2)
  let minHalfWidthAbs :=
    clamp ((opts.bind (·.minHalfWidthAbs)).getD (.fin (1/100))) (.fin 0) (.fin (1/2))
  let maxHalfWidthAbs :=
    clamp ((opts.bind (·.maxHalfWidthAbs)).getD (.fin (6/100))) (.fin 0) (.fin (1/2))
  let shares := computeImpliedMediumAllocationShares benchmark
  VMX_CATEGORIES.map (fun cat =>
    let center := safePct (shares cat.id)
    let halfRel := center.mul relativeTolerance
    let half := clamp (JSNum.jmax minHalfWidthAbs halfRel) (.fin 0) maxHalfWidthAbs
    let minPct := center.sub half
    let maxPct := center.add half
    let fixed := ensureMinMax minPct maxPct
    { categoryId := some cat.id, minPct := fixed.1, maxPct := fixed.2 })

/-- The `byCat` map of `ensureCompleteTargetRanges`: scan the existing
ranges, skip null entries and entries without a category id, normalise
each kept entry; a later entry for the same category overwrites an
earlier one (`Map.set`). The result is the final map lookup for `cid`. -/
def byCatLookup (existing : List (Option TargetRange)) (cid : VmxCategoryId) :
    Option TargetRange :=
  existing.foldl (fun acc r? =>
    match r? with
    | none => acc
    | some r =>
      match r.categoryId with
      | none => acc
      | some c =>
        if c == cid then
          let fixed := ensureMinMax r.minPct r.maxPct
          some { categoryId := some c, minPct := fixed.1, maxPct := fixed.2 }
        else acc) none

/-- Source `ensureCompleteTargetRanges`: existing well-formed ranges
(normalised, last entry per category wins), completed per category from
the derived ranges, with `[0, 1]` as the last-resort fallback. -/
def ensureCompleteTargetRanges (benchmark : BenchmarkSet) : List TargetRange :=
  let existing : List (Option TargetRange) := benchmark.targetRanges.getD []
  let derived := deriveTargetRangesFromMedium benchmark none
  VMX_CATEGORIES.map (fun cat =>
    match byCatLookup existing cat.id with
    | some r => r
    | none =>
      match derived.find? (fun x => x.categoryId == some cat.id) with
      | some d => d
      | none => { categoryId := some cat.id, minPct := .fin 0, maxPct := .fin 1 })

/-- Source `getTargetRangeForCategory`. -/
def getTargetRangeForCategory (benchmark : BenchmarkSet) (categoryId : VmxCategoryId) :
    TargetRange :=
  match (ensureCompleteTargetRanges benchmark).find? (fun r => r.categoryId == some categoryId) with
  | some r => r
  | none => { categoryId := some categoryId, minPct := .fin 0, maxPct := .fin 1 }

/-- The `selectionByCat` map of `computeScenarioResult`: built by
`Map.set` over the selections, so the last selection for a category
wins. -/
def selectionByCat (selections : List ScenarioSelection) (cid : VmxCategoryId) :
    Option ScenarioSelection :=
  selections.foldl (fun acc sel => if sel.categoryId == cid then some sel else acc) none

/-- One element of the source's `interim` array. -/
structure Interim where
  categoryId : VmxCategoryId
  label : String
  band : HeatBand
  psqftUsed : JSNum
  cost : JSNum
  range : TargetRange
deriving DecidableEq

/-- The body of the source's `interim` map for one category: missing
selection and missing band throw; otherwise the unit cost is the
override when present (nullish coalescing) else the band's psqft, the
cost is `areaSqft * psqftUsed`, and the target range is looked up in the
pre-computed safe ranges. -/
def resolveCategory (areaSqft : JSNum) (benchmark : BenchmarkSet)
    (selections : List ScenarioSelection) (safeTargetRanges : List TargetRange)
    (cat : CategoryDef) : Except VmxError Interim :=
  match selectionByCat selections cat.id with
  | none => .error (.missingSelection cat.id)
  | some sel =>
    match requireBand benchmark cat.id sel.band with
    | .error e => .error e
    | .ok base =>
      let psqftUsed := sel.overridePsqft.getD base.psqft
      let cost := areaSqft.mul psqftUsed
      let range :=
        (safeTargetRanges.find? (fun r => r.categoryId == some cat.id)).getD
          (getTargetRangeForCategory benchmark cat.id)
      .ok { categoryId := cat.id, label := cat.label, band := sel.band,
            psqftUsed := psqftUsed, cost := cost, range := range }

/-- Left-to-right effectful map over `Except`, mirroring a `.map` whose
body can throw: the first throw aborts the whole computation. -/
def mapMExcept (f : α → Except VmxError β) : List α → Except VmxError (List β)
  | [] => .ok []
  | x :: xs =>
    match f x with
    | .error e => .error e
    | .ok y =>
      match mapMExcept f xs with
      | .error e => .error e
      | .ok ys => .ok (y :: ys)

/-- The body of the source's final `categories` map for one interim
entry, given the already-computed total. -/
def finishCategory (totalCost : JSNum) (r : Interim) : CategoryResult :=
  let pct := r.cost.div totalCost
  let fixed := ensureMinMax r.range.minPct r.range.maxPct
  let rangeStatus := classifyRange pct fixed.1 fixed.2
  { categoryId := r.categoryId, label := r.label, band := r.band,
    psqftUsed := r.psqftUsed, cost := r.cost, pctOfTotal := pct,
    targetMinPct := fixed.1, targetMaxPct := fixed.2,
    rangeStatus := rangeStatus, isOutOfRange := rangeStatus ≠ .OK }

structure ScenarioParams where
  areaSqft : JSNum
  benchmark : BenchmarkSet
  selections : List ScenarioSelection
deriving DecidableEq

/-- Source `computeScenarioResult`: validate the area, resolve every
category in fixed order (throwing on a missing selection or band), sum
the costs, reject a non-positive total, then attach percentages, fixed
ranges and classifications. -/
def computeScenarioResult (params : ScenarioParams) : Except VmxError ScenarioResult :=
  if !params.areaSqft.isFinite || JSNum.le params.areaSqft (.fin 0) then
    .error .invalidArea
  else
    match mapMExcept
        (resolveCategory params.areaSqft params.benchmark params.selections
          (ensureCompleteTargetRanges params.benchmark))
        VMX_CATEGORIES with
    | .error e => .error e
    | .ok interim =>
      let totalCost := interim.foldl (fun s r => s.add r.cost) (.fin 0)
      if JSNum.le totalCost (.fin 0) then .error .nonPositiveTotal
      else
        .ok { areaSqft := params.areaSqft,
              currency := params.benchmark.currency,
              totalCost := totalCost,
              totalPsqft := totalCost.div params.areaSqft,
              categories := interim.map (finishCategory totalCost) }

/-- Sum of the `cost` fields of a list of category results. -/
def costSum (l : List CategoryResult) : JSNum :=
  l.foldl (fun s c => s.add c.cost) (.fin 0)

/-- Sum of the `pctOfTotal` fields of a list of category results. -/
def pctSum (l : List CategoryResult) : JSNum :=
  l.foldl (fun s c => s.add c.pctOfTotal) (.fin 0)

/-- Sum of the implied Medium allocation shares over the fixed category
set. -/
def shareSum (benchmark : BenchmarkSet) : JSNum :=
  VMX_CATEGORIES.foldl
    (fun s cat => s.add (computeImpliedMediumAllocationShares benchmark cat.id)) (.fin 0)

/-! Basic facts about the clamping and normalisation helpers. -/

theorem safePct_fin_eval (q : ℚ) : safePct (.fin q) = .fin (min 1 (max 0 q)) := by
  simp [safePct, clamp, JSNum.isFinite, JSNum.jmax_fin, JSNum.jmin_fin]

theorem safePct_spec (n : JSNum) :
    ∃ q : ℚ, safePct n = .fin q ∧ 0 ≤ q ∧ q ≤ 1 := by
  cases n with
  | fin q =>
    exact ⟨min 1 (max 0 q), safePct_fin_eval q,
      le_min (by norm_num) (le_max_left 0 q), min_le_left 1 _⟩
  | nan => exact ⟨0, rfl, by norm_num⟩
  | inf => exact ⟨0, rfl, by norm_num⟩
  | negInf => exact ⟨0, rfl, by norm_num⟩

theorem safePct_id (q : ℚ) (h0 : 0 ≤ q) (h1 : q ≤ 1) : safePct (.fin q) = .fin q := by
  rw [safePct_fin_eval, max_eq_right h0, min_eq_right h1]

theorem ensureMinMax_bounds (a b : JSNum) :
    ∃ mn mx : ℚ, ensureMinMax a b = (.fin mn, .fin mx) ∧ 0 ≤ mn ∧ mn ≤ mx ∧ mx ≤ 1 := by
  obtain ⟨qa, ha, ha0, ha1⟩ := safePct_spec a
  obtain ⟨qb, hb, hb0, hb1⟩ := safePct_spec b
  by_cases h : qb < qa
  · refine ⟨qa, qa, ?_, ha0, le_refl _, ha1⟩
    simp [ensureMinMax, ha, hb, JSNum.lt, h]
  · refine ⟨qa, qb, ?_, ha0, not_lt.mp h, hb1⟩
    simp [ensureMinMax, ha, hb, JSNum.lt, h]

theorem ensureMinMax_id (mn mx : ℚ) (h0 : 0 ≤ mn) (h1 : mn ≤ mx) (h2 : mx ≤ 1) :
    ensureMinMax (.fin mn) (.fin mx) = (.fin mn, .fin mx) := by
  have hmn := safePct_id mn h0 (le_trans h1 h2)
  have hmx := safePct_id mx (le_trans h0 h1) h2
  simp [ensureMinMax, hmn, hmx, JSNum.lt, not_lt.mpr h1]

/-- C9: Range normalization is idempotent: an already-normalized pair
(0 ≤ minPct ≤ maxPct ≤ 1) is returned unchanged by `ensureMinMax`, and
applying `ensureMinMax` twice to any input equals applying it once. -/
theorem claim_C9_ensureMinMax_idempotent :
    (∀ mn mx : ℚ, 0 ≤ mn → mn ≤ mx → mx ≤ 1 →
      ensureMinMax (.fin mn) (.fin mx) = (.fin mn, .fin mx)) ∧
    (∀ a b : JSNum,
      ensureMinMax (ensureMinMax a b).1 (ensureMinMax a b).2 = ensureMinMax a b) := by
  constructor
  · exact ensureMinMax_id
  · intro a b
    obtain ⟨mn, mx, heq, h0, h1, h2⟩ := ensureMinMax_bounds a b
    rw [heq]
    exact ensureMinMax_id mn mx h0 h1 h2

/-- Witness for C9 at a concrete normalized range. -/
theorem claim_C9_witness :
    ensureMinMax (.fin (1/4)) (.fin (1/2)) = (.fin (1/4), .fin (1/2)) :=
  claim_C9_ensureMinMax_idempotent.1 (1/4) (1/2) (by norm_num) (by norm_num) (by norm_num)

/-- C3: The classification is a closed-interval three-way comparison:
both boundary values classify OK, strictly below the minimum is LOW,
strictly above the maximum is HIGH, and anything in between is OK. -/
theorem claim_C3_classify_closed_interval :
    ∀ mn mx p : ℚ, mn ≤ mx →
      (classifyRange (.fin mn) (.fin mn) (.fin mx) = .OK ∧
       classifyRange (.fin mx) (.fin mn) (.fin mx) = .OK) ∧
      (p < mn → classifyRange (.fin p) (.fin mn) (.fin mx) = .LOW) ∧
      (mx < p → classifyRange (.fin p) (.fin mn) (.fin mx) = .HIGH) ∧
      (mn ≤ p → p ≤ mx → classifyRange (.fin p) (.fin mn) (.fin mx) = .OK) := by
  intro mn mx p h
  refine ⟨⟨?_, ?_⟩, ?_, ?_, ?_⟩
  · simp [classifyRange, JSNum.lt, lt_irrefl, not_lt.mpr h]
  · simp [classifyRange, JSNum.lt, lt_irrefl, not_lt.mpr h]
  · intro hp
    simp [classifyRange, JSNum.lt, hp]
  · intro hp
    have : ¬ p < mn := not_lt.mpr (le_trans h hp.le)
    simp [classifyRange, JSNum.lt, this, hp]
  · intro hp1 hp2
    simp [classifyRange, JSNum.lt, not_lt.mpr hp1, not_lt.mpr hp2]

/-- Witness for C3 at concrete boundary values. -/
theorem claim_C3_witness :
    classifyRange (.fin (1/4)) (.fin (1/4)) (.fin (1/2)) = .OK ∧
    classifyRange (.fin (1/8)) (.fin (1/4)) (.fin (1/2)) = .LOW ∧
    classifyRange (.fin (3/4)) (.fin (1/4)) (.fin (1/2)) = .HIGH :=
  ⟨(claim_C3_classify_closed_interval (1/4) (1/2) 0 (by norm_num)).1.1,
   (claim_C3_classify_closed_interval (1/4) (1/2) (1/8) (by norm_num)).2.1 (by norm_num),
   (claim_C3_classify_closed_interval (1/4) (1/2) (3/4) (by norm_num)).2.2.1 (by norm_num)⟩

/-- A target range with the expected category id and finite, ordered,
clamped bounds. -/
def validRangeFor (cid : VmxCategoryId) (r : TargetRange) : Prop :=
  r.categoryId = some cid ∧
  ∃ mn mx : ℚ, r.minPct = .fin mn ∧ r.maxPct = .fin mx ∧ 0 ≤ mn ∧ mn ≤ mx ∧ mx ≤ 1

theorem mk_range_valid (cid : VmxCategoryId) (a b : JSNum) :
    validRangeFor cid
      { categoryId := some cid, minPct := (ensureMinMax a b).1, maxPct := (ensureMinMax a b).2 } := by
  obtain ⟨mn, mx, heq, h0, h1, h2⟩ := ensureMinMax_bounds a b
  exact ⟨rfl, mn, mx, by rw [heq], by rw [heq], h0, h1, h2⟩

theorem byCatFold_spec (cid : VmxCategoryId) (l : List (Option TargetRange)) :
    ∀ acc : Option TargetRange,
      (∀ r, acc = some r → validRangeFor cid r) →
      ∀ r, l.foldl (fun acc r? =>
          match r? with
          | none => acc
          | some r =>
            match r.categoryId with
            | none => acc
            | some c =>
              if c == cid then
                let fixed := ensureMinMax r.minPct r.maxPct
                some { categoryId := some c, minPct := fixed.1, maxPct := fixed.2 }
              else acc) acc = some r →
        validRangeFor cid r := by
  induction l with
  | nil =>
    intro acc hacc r h
    exact hacc r (by simpa using h)
  | cons x xs ih =>
    intro acc hacc r h
    rw [List.foldl_cons] at h
    refine ih _ ?_ r h
    intro r' hr'
    cases x with
    | none => exact hacc r' hr'
    | some tr =>
      have hr2 : (match tr.categoryId with
          | none => acc
          | some c =>
            if c == cid then
              some { categoryId := some c,
                     minPct := (ensureMinMax tr.minPct tr.maxPct).1,
                     maxPct := (ensureMinMax tr.minPct tr.maxPct).2 }
            else acc) = some r' := hr'
      cases htr : tr.categoryId with
      | none =>
        rw [htr] at hr2
        exact hacc r' hr2
      | some c =>
        rw [htr] at hr2
        by_cases hc : c = cid
        · subst hc
          simp only [beq_self_eq_true, if_true] at hr2
          cases hr2
          exact mk_range_valid c tr.minPct tr.maxPct
        · simp only [beq_iff_eq, hc, if_false] at hr2
          exact hacc r' hr2

theorem byCatLookup_spec (existing : List (Option TargetRange)) (cid : VmxCategoryId)
    (r : TargetRange) (h : byCatLookup existing cid = some r) : validRangeFor cid r :=
  byCatFold_spec cid existing none (by intro r' h'; cases h') r h

theorem derive_mem_spec (benchmark : BenchmarkSet) (opts : Option TargetRangeDerivationOptions)
    (r : TargetRange) (h : r ∈ deriveTargetRangesFromMedium benchmark opts) :
    ∃ cat ∈ VMX_CATEGORIES, validRangeFor cat.id r := by
  unfold deriveTargetRangesFromMedium at h
  obtain ⟨cat, hcat, hr⟩ := List.mem_map.mp h
  refine ⟨cat, hcat, ?_⟩
  rw [← hr]
  exact mk_range_valid cat.id _ _

theorem ensureComplete_eq (bm : BenchmarkSet) :
    ensureCompleteTargetRanges bm = VMX_CATEGORIES.map (fun cat =>
      match byCatLookup (bm.targetRanges.getD []) cat.id with
      | some r => r
      | none =>
        match (deriveTargetRangesFromMedium bm none).find?
            (fun x => x.categoryId == some cat.id) with
        | some d => d
        | none => { categoryId := some cat.id, minPct := .fin 0, maxPct := .fin 1 }) := rfl

theorem ensureComplete_body_valid (bm : BenchmarkSet) (cat : CategoryDef) :
    validRangeFor cat.id
      (match byCatLookup (bm.targetRanges.getD []) cat.id with
       | some r => r
       | none =>
         match (deriveTargetRangesFromMedium bm none).find?
             (fun x => x.categoryId == some cat.id) with
         | some d => d
         | none => { categoryId := some cat.id, minPct := .fin 0, maxPct := .fin 1 }) := by
  cases hby : byCatLookup (bm.targetRanges.getD []) cat.id with
  | some r =>
    exact byCatLookup_spec _ _ _ hby
  | none =>
    cases hfd : (deriveTargetRangesFromMedium bm none).find?
        (fun x => x.categoryId == some cat.id) with
    | some d =>
      have hmem := List.mem_of_find?_eq_some hfd
      have hpred := List.find?_some hfd
      obtain ⟨cat', _, _, hbounds⟩ := derive_mem_spec bm none d hmem
      exact ⟨by simpa using hpred, hbounds⟩
    | none =>
      exact ⟨rfl, 0, 1, rfl, rfl, le_refl 0, by norm_num, le_refl 1⟩

/-- C2: For every input benchmark (including one whose target-range
collection is missing, empty, or malformed), `ensureCompleteTargetRanges`
returns exactly one target range per category of the fixed 7-category
set, in the fixed category order, and every returned range has finite
bounds with `0 ≤ minPct ≤ maxPct ≤ 1`. -/
theorem claim_C2_ensureCompleteTargetRanges_valid :
    ∀ benchmark : BenchmarkSet,
      (ensureCompleteTargetRanges benchmark).map TargetRange.categoryId
        = VMX_CATEGORIES.map (fun c => some c.id) ∧
      ∀ r ∈ ensureCompleteTargetRanges benchmark,
        ∃ mn mx : ℚ, r.minPct = .fin mn ∧ r.maxPct = .fin mx ∧
          0 ≤ mn ∧ mn ≤ mx ∧ mx ≤ 1 := by
  intro bm
  constructor
  · rw [ensureComplete_eq, List.map_map]
    apply List.map_congr_left
    intro cat _
    exact (ensureComplete_body_valid bm cat).1
  · intro r hr
    rw [ensureComplete_eq] at hr
    obtain ⟨cat, _, hbody⟩ := List.mem_map.mp hr
    obtain ⟨_, mn, mx, h1, h2, h3⟩ := ensureComplete_body_valid bm cat
    rw [hbody] at h1 h2
    exact ⟨mn, mx, h1, h2, h3⟩

/-- Benchmark used by the C2 witness: no bands, a complete explicit
target-range table. -/
def c2WitnessBenchmark : BenchmarkSet :=
  { id := "w", name := "w", currency := "USD", bands := [],
    targetRanges := some (VMX_CATEGORIES.map (fun c =>
      some { categoryId := some c.id, minPct := .fin 0, maxPct := .fin 1 })) }

/-- Witness for C2 at a concrete benchmark and concrete member range. -/
theorem claim_C2_witness :
    ∃ mn mx : ℚ,
      ({ categoryId := some .FACILITATING, minPct := .fin 0, maxPct := .fin 1 }
          : TargetRange).minPct = .fin mn ∧
      ({ categoryId := some .FACILITATING, minPct := .fin 0, maxPct := .fin 1 }
          : TargetRange).maxPct = .fin mx ∧
      0 ≤ mn ∧ mn ≤ mx ∧ mx ≤ 1 :=
  (claim_C2_ensureCompleteTargetRanges_valid c2WitnessBenchmark).2
    { categoryId := some .FACILITATING, minPct := .fin 0, maxPct := .fin 1 }
    (by decide)

/-- Benchmark used for C6: a single MEDIUM band with a negative unit
cost. -/
def c6Benchmark : BenchmarkSet :=
  { id := "n", name := "n", currency := "USD",
    bands := [{ categoryId := .FACILITATING, band := .MEDIUM, psqft := .fin (-1) }],
    targetRanges := none }

/-- Counterexample to C6 as stated: the MEDIUM band entry is present
with the finite value -1, yet the representative unit cost resolves to
0 (the value is clamped below at 0), not to the Medium band's unit
cost. -/
theorem claim_C6_counterexample :
    findBand c6Benchmark .FACILITATING .MEDIUM =
      some { categoryId := .FACILITATING, band := .MEDIUM, psqft := .fin (-1) } ∧
    (JSNum.fin (-1)).isFinite = true ∧
    getMediumPsqftOrFallback c6Benchmark .FACILITATING = .fin 0 ∧
    getMediumPsqftOrFallback c6Benchmark .FACILITATING ≠ .fin (-1) := by
  refine ⟨by decide, rfl, by decide, by decide⟩

theorem getMedium_fallback_eq (bm : BenchmarkSet) (c : VmxCategoryId)
    (hm : ∀ m, findBand bm c .MEDIUM = some m → m.psqft.isFinite = false) :
    getMediumPsqftOrFallback bm c =
      (match (match findBand bm c .LOW with
              | some b => if b.psqft.isFinite then some (JSNum.jmax (.fin 0) b.psqft) else none
              | none => none),
             (match findBand bm c .HIGH with
              | some b => if b.psqft.isFinite then some (JSNum.jmax (.fin 0) b.psqft) else none
              | none => none) with
       | some l, some h => (l.add h).div (.fin 2)
       | some l, none => l
       | none, some h => h
       | none, none => .fin 0) := by
  unfold getMediumPsqftOrFallback
  cases hmed : findBand bm c .MEDIUM with
  | none => rfl
  | some m =>
    have hfin := hm m hmed
    simp only [hfin, Bool.false_eq_true, if_false]

/-- C6 amended: the representative unit cost uses the first matching
band entries and clamps each value below at 0: it is `max 0 q` when the
MEDIUM entry is present with finite psqft `q`; else the average of
`max 0 qLow` and `max 0 qHigh` when both LOW and HIGH are present and
finite; else `max 0` of whichever of LOW/HIGH is present and finite;
else 0. -/
theorem claim_C6_amended_representative :
    ∀ (bm : BenchmarkSet) (c : VmxCategoryId),
      (∀ m q, findBand bm c .MEDIUM = some m → m.psqft = .fin q →
        getMediumPsqftOrFallback bm c = .fin (max 0 q)) ∧
      ((∀ m, findBand bm c .MEDIUM = some m → m.psqft.isFinite = false) →
        (∀ l ql h qh, findBand bm c .LOW = some l → l.psqft = .fin ql →
          findBand bm c .HIGH = some h → h.psqft = .fin qh →
          getMediumPsqftOrFallback bm c = .fin ((max 0 ql + max 0 qh) / 2)) ∧
        (∀ l ql, findBand bm c .LOW = some l → l.psqft = .fin ql →
          (∀ h, findBand bm c .HIGH = some h → h.psqft.isFinite = false) →
          getMediumPsqftOrFallback bm c = .fin (max 0 ql)) ∧
        (∀ h qh, findBand bm c .HIGH = some h → h.psqft = .fin qh →
          (∀ l, findBand bm c .LOW = some l → l.psqft.isFinite = false) →
          getMediumPsqftOrFallback bm c = .fin (max 0 qh)) ∧
        ((∀ l, findBand bm c .LOW = some l → l.psqft.isFinite = false) →
         (∀ h, findBand bm c .HIGH = some h → h.psqft.isFinite = false) →
          getMediumPsqftOrFallback bm c = .fin 0)) := by
  intro bm c
  constructor
  · intro m q hm hq
    simp [getMediumPsqftOrFallback, hm, hq, JSNum.jmax_fin]
  · intro hmed
    rw [getMedium_fallback_eq bm c hmed]
    have reduceLow : ∀ (b : BenchmarkBand) (q : ℚ), findBand bm c .LOW = some b →
        b.psqft = .fin q →
        (match findBand bm c .LOW with
         | some b => if b.psqft.isFinite then some (JSNum.jmax (.fin 0) b.psqft) else none
         | none => none) = some (.fin (max 0 q)) := by
      intro b q hb hq
      simp [hb, hq, JSNum.jmax_fin]
    have reduceLowNone : (∀ l, findBand bm c .LOW = some l → l.psqft.isFinite = false) →
        (match findBand bm c .LOW with
         | some b => if b.psqft.isFinite then some (JSNum.jmax (.fin 0) b.psqft) else none
         | none => none) = none := by
      intro hl
      cases hb : findBand bm c .LOW with
      | none => rfl
      | some b => simp [hl b hb]
    have reduceHigh : ∀ (b : BenchmarkBand) (q : ℚ), findBand bm c .HIGH = some b →
        b.psqft = .fin q →
        (match findBand bm c .HIGH with
         | some b => if b.psqft.isFinite then some (JSNum.jmax (.fin 0) b.psqft) else none
         | none => none) = some (.fin (max 0 q)) := by
      intro b q hb hq
      simp [hb, hq, JSNum.jmax_fin]
    have reduceHighNone : (∀ h, findBand bm c .HIGH = some h → h.psqft.isFinite = false) →
        (match findBand bm c .HIGH with
         | some b => if b.psqft.isFinite then some (JSNum.jmax (.fin 0) b.psqft) else none
         | none => none) = none := by
      intro hh
      cases hb : findBand bm c .HIGH with
      | none => rfl
      | some b => simp [hh b hb]
    refine ⟨?_, ?_, ?_, ?_⟩
    · intro l ql h qh hl hql hh hqh
      rw [reduceLow l ql hl hql, reduceHigh h qh hh hqh]
      show ((JSNum.fin (max 0 ql)).add (.fin (max 0 qh))).div (.fin 2) = _
      rw [JSNum.add_fin]
      exact JSNum.div_fin _ 2 (by norm_num)
    · intro l ql hl hql hh
      rw [reduceLow l ql hl hql, reduceHighNone hh]
    · intro h qh hh hqh hl
      rw [reduceHigh h qh hh hqh, reduceLowNone hl]
    · intro hl hh
      rw [reduceLowNone hl, reduceHighNone hh]

/-- Witness for the amended C6 at the concrete negative-Medium
benchmark. -/
theorem claim_C6_witness :
    getMediumPsqftOrFallback c6Benchmark .FACILITATING = .fin (max 0 (-1)) :=
  (claim_C6_amended_representative c6Benchmark .FACILITATING).1
    { categoryId := .FACILITATING, band := .MEDIUM, psqft := .fin (-1) } (-1)
    (by decide) rfl

theorem shares_fallback (bm : BenchmarkSet)
    (h : (!(sumPsqft bm).isFinite || JSNum.le (sumPsqft bm) (.fin 0)) = true)
    (cid : VmxCategoryId) :
    computeImpliedMediumAllocationShares bm cid =
      JSNum.div (.fin 1) (.fin (VMX_CATEGORIES.length)) := by
  unfold computeImpliedMediumAllocationShares
  simp only [h, if_true]

theorem shares_normal (bm : BenchmarkSet)
    (h : (!(sumPsqft bm).isFinite || JSNum.le (sumPsqft bm) (.fin 0)) = false)
    (cid : VmxCategoryId) :
    computeImpliedMediumAllocationShares bm cid =
      (getMediumPsqftOrFallback bm cid).div (sumPsqft bm) := by
  unfold computeImpliedMediumAllocationShares
  simp only [h, Bool.false_eq_true, if_false]

theorem clampedOpt_spec (fb : Option BenchmarkBand) :
    (match fb with
     | some b => if b.psqft.isFinite then some (JSNum.jmax (.fin 0) b.psqft) else none
     | none => none) = none ∨
    ∃ q : ℚ, 0 ≤ q ∧
      (match fb with
       | some b => if b.psqft.isFinite then some (JSNum.jmax (.fin 0) b.psqft) else none
       | none => none) = some (.fin q) := by
  cases fb with
  | none => left; rfl
  | some b =>
    cases hp : b.psqft with
    | fin q =>
      right
      exact ⟨max 0 q, le_max_left 0 q, by simp [hp, JSNum.jmax_fin]⟩
    | nan => left; simp [hp, JSNum.isFinite]
    | inf => left; simp [hp, JSNum.isFinite]
    | negInf => left; simp [hp, JSNum.isFinite]

theorem getMedium_fin_nonneg (bm : BenchmarkSet) (c : VmxCategoryId) :
    ∃ q : ℚ, getMediumPsqftOrFallback bm c = .fin q ∧ 0 ≤ q := by
  unfold getMediumPsqftOrFallback
  rcases clampedOpt_spec (findBand bm c .MEDIUM) with hm | ⟨q, hq, hm⟩
  · rw [hm]
    rcases clampedOpt_spec (findBand bm c .LOW) with hl | ⟨ql, hql, hl⟩ <;>
      rcases clampedOpt_spec (findBand bm c .HIGH) with hh | ⟨qh, hqh, hh⟩
    · rw [hl, hh]; exact ⟨0, rfl, le_refl 0⟩
    · rw [hl, hh]; exact ⟨qh, rfl, hqh⟩
    · rw [hl, hh]; exact ⟨ql, rfl, hql⟩
    · rw [hl, hh]
      refine ⟨(ql + qh) / 2, ?_, by positivity⟩
      show ((JSNum.fin ql).add (.fin qh)).div (.fin 2) = _
      rw [JSNum.add_fin]
      exact JSNum.div_fin _ 2 (by norm_num)
  · rw [hm]
    exact ⟨q, rfl, hq⟩

/-- C7: For every benchmark, `computeImpliedMediumAllocationShares`
produces a finite share for every one of the 7 fixed categories, and
the shares sum to 1 within 1e-9 (exactly 1 in the rational model), on
both the proportional path and the equal-weight fallback path. -/
theorem claim_C7_shares_sum_to_one :
    ∀ benchmark : BenchmarkSet,
      (∀ cid : VmxCategoryId,
        (computeImpliedMediumAllocationShares benchmark cid).isFinite = true) ∧
      ∃ q : ℚ, shareSum benchmark = .fin q ∧ |q - 1| ≤ 1 / 1000000000 := by
  intro bm
  obtain ⟨q1, h1, h1n⟩ := getMedium_fin_nonneg bm .FACILITATING
  obtain ⟨q2, h2, h2n⟩ := getMedium_fin_nonneg bm .SUBSTRUCTURE
  obtain ⟨q3, h3, h3n⟩ := getMedium_fin_nonneg bm .SUPERSTRUCTURE
  obtain ⟨q4, h4, h4n⟩ := getMedium_fin_nonneg bm .INTERNAL_FINISHES
  obtain ⟨q5, h5, h5n⟩ := getMedium_fin_nonneg bm .FF_E
  obtain ⟨q6, h6, h6n⟩ := getMedium_fin_nonneg bm .SERVICES
  obtain ⟨q7, h7, h7n⟩ := getMedium_fin_nonneg bm .EXTERNAL_WORKS
  have hsum : sumPsqft bm = .fin (0 + q1 + q2 + q3 + q4 + q5 + q6 + q7) := by
    simp [sumPsqft, VMX_CATEGORIES, h1, h2, h3, h4, h5, h6, h7]
  cases hcond : (!(sumPsqft bm).isFinite || JSNum.le (sumPsqft bm) (.fin 0)) with
  | true =>
    have hshare : ∀ cid, computeImpliedMediumAllocationShares bm cid = .fin (1 / 7) := by
      intro cid
      rw [shares_fallback bm hcond cid]
      rw [show ((VMX_CATEGORIES.length : ℚ)) = 7 by norm_num [VMX_CATEGORIES]]
      exact JSNum.div_fin 1 7 (by norm_num)
    refine ⟨fun cid => by rw [hshare cid]; rfl, 1, ?_, by norm_num⟩
    have : (JSNum.fin (0 + 1/7 + 1/7 + 1/7 + 1/7 + 1/7 + 1/7 + 1/7)) = JSNum.fin 1 := by
      norm_num
    simp only [shareSum, VMX_CATEGORIES, List.foldl_cons, List.foldl_nil]
    simp only [hshare, JSNum.add_fin]
    norm_num
  | false =>
    have hQ : 0 < 0 + q1 + q2 + q3 + q4 + q5 + q6 + q7 := by
      rw [hsum] at hcond
      simp only [JSNum.isFinite_fin, Bool.not_true, JSNum.le_fin, Bool.false_or,
        decide_eq_false_iff_not, not_le] at hcond
      exact hcond
    have hQne : (0 + q1 + q2 + q3 + q4 + q5 + q6 + q7) ≠ 0 := ne_of_gt hQ
    have hdiv : ∀ a : ℚ, (JSNum.fin a).div (.fin (0 + q1 + q2 + q3 + q4 + q5 + q6 + q7)) =
        .fin (a / (0 + q1 + q2 + q3 + q4 + q5 + q6 + q7)) :=
      fun a => JSNum.div_fin a _ hQne
    have hshare : ∀ cid, ∃ a : ℚ, computeImpliedMediumAllocationShares bm cid =
        .fin (a / (0 + q1 + q2 + q3 + q4 + q5 + q6 + q7)) := by
      intro cid
      rw [shares_normal bm hcond cid, hsum]
      obtain ⟨a, ha, _⟩ := getMedium_fin_nonneg bm cid
      exact ⟨a, by rw [ha, hdiv a]⟩
    constructor
    · intro cid
      obtain ⟨a, ha⟩ := hshare cid
      rw [ha]; rfl
    · refine ⟨1, ?_, by norm_num⟩
      have e1 : computeImpliedMediumAllocationShares bm .FACILITATING =
          .fin (q1 / (0 + q1 + q2 + q3 + q4 + q5 + q6 + q7)) := by
        rw [shares_normal bm hcond _, hsum, h1, hdiv q1]
      have e2 : computeImpliedMediumAllocationShares bm .SUBSTRUCTURE =
          .fin (q2 / (0 + q1 + q2 + q3 + q4 + q5 + q6 + q7)) := by
        rw [shares_normal bm hcond _, hsum, h2, hdiv q2]
      have e3 : computeImpliedMediumAllocationShares bm .SUPERSTRUCTURE =
          .fin (q3 / (0 + q1 + q2 + q3 + q4 + q5 + q6 + q7)) := by
        rw [shares_normal bm hcond _, hsum, h3, hdiv q3]
      have e4 : computeImpliedMediumAllocationShares bm .INTERNAL_FINISHES =
          .fin (q4 / (0 + q1 + q2 + q3 + q4 + q5 + q6 + q7)) := by
        rw [shares_normal bm hcond _, hsum, h4, hdiv q4]
      have e5 : computeImpliedMediumAllocationShares bm .FF_E =
          .fin (q5 / (0 + q1 + q2 + q3 + q4 + q5 + q6 + q7)) := by
        rw [shares_normal bm hcond _, hsum, h5, hdiv q5]
      have e6 : computeImpliedMediumAllocationShares bm .SERVICES =
          .fin (q6 / (0 + q1 + q2 + q3 + q4 + q5 + q6 + q7)) := by
        rw [shares_normal bm hcond _, hsum, h6, hdiv q6]
      have e7 : computeImpliedMediumAllocationShares bm .EXTERNAL_WORKS =
          .fin (q7 / (0 + q1 + q2 + q3 + q4 + q5 + q6 + q7)) := by
        rw [shares_normal bm hcond _, hsum, h7, hdiv q7]
      simp only [shareSum, VMX_CATEGORIES, List.foldl_cons, List.foldl_nil]
      simp only [e1, e2, e3, e4, e5, e6, e7, JSNum.add_fin]
      congr 1
      have hS : q1 + q2 + q3 + q4 + q5 + q6 + q7 ≠ 0 := fun h => hQne (by linarith)
      field_simp

theorem clampedOpt_zero (bm : BenchmarkSet)
    (hz : ∀ b ∈ bm.bands, JSNum.le b.psqft (.fin 0) = true)
    (c : VmxCategoryId) (band : HeatBand) :
    (match findBand bm c band with
     | some b => if b.psqft.isFinite then some (JSNum.jmax (.fin 0) b.psqft) else none
     | none => none) = none ∨
    (match findBand bm c band with
     | some b => if b.psqft.isFinite then some (JSNum.jmax (.fin 0) b.psqft) else none
     | none => none) = some (.fin 0) := by
  cases hfb : findBand bm c band with
  | none => left; rfl
  | some b =>
    have hmem : b ∈ bm.bands := List.mem_of_find?_eq_some hfb
    have hle := hz b hmem
    cases hp : b.psqft with
    | fin q =>
      right
      rw [hp] at hle
      have hq : q ≤ 0 := by simpa using hle
      simp [hp, JSNum.jmax_fin, max_eq_left hq]
    | nan => rw [hp] at hle; simp [JSNum.le] at hle
    | inf => rw [hp] at hle; simp [JSNum.le] at hle
    | negInf => left; simp [hp, JSNum.isFinite]

theorem getMedium_zero (bm : BenchmarkSet)
    (hz : ∀ b ∈ bm.bands, JSNum.le b.psqft (.fin 0) = true) (c : VmxCategoryId) :
    getMediumPsqftOrFallback bm c = .fin 0 := by
  unfold getMediumPsqftOrFallback
  rcases clampedOpt_zero bm hz c .MEDIUM with hm | hm
  · rw [hm]
    rcases clampedOpt_zero bm hz c .LOW with hl | hl <;>
      rcases clampedOpt_zero bm hz c .HIGH with hh | hh <;> rw [hl, hh]
    show ((JSNum.fin 0).add (.fin 0)).div (.fin 2) = .fin 0
    rw [JSNum.add_fin, JSNum.div_fin _ 2 (by norm_num)]
    norm_num
  · rw [hm]

/-- C8: If every band of a benchmark has a zero-or-negative unit cost
(in the JavaScript `<= 0` sense, so for every category across all
bands), then every category's implied share is the equal-weight value
`1 / categoryCount`. -/
theorem claim_C8_equal_weight_fallback :
    ∀ benchmark : BenchmarkSet,
      (∀ b ∈ benchmark.bands, JSNum.le b.psqft (.fin 0) = true) →
      ∀ cid : VmxCategoryId,
        computeImpliedMediumAllocationShares benchmark cid =
          .fin (1 / (VMX_CATEGORIES.length : ℚ)) := by
  intro bm hz cid
  have hsum : sumPsqft bm = .fin 0 := by
    simp [sumPsqft, VMX_CATEGORIES, getMedium_zero bm hz]
  have hcond : (!(sumPsqft bm).isFinite || JSNum.le (sumPsqft bm) (.fin 0)) = true := by
    rw [hsum]; simp
  rw [shares_fallback bm hcond cid]
  exact JSNum.div_fin 1 _ (by norm_num [VMX_CATEGORIES])

/-- Benchmark whose 21 bands all have unit cost 0. -/
def zeroBenchmark : BenchmarkSet :=
  { id := "z", name := "z", currency := "USD",
    bands := VMX_CATEGORIES.foldr (fun c acc =>
      ({ categoryId := c.id, band := .LOW, psqft := .fin 0 } : BenchmarkBand) ::
      ({ categoryId := c.id, band := .MEDIUM, psqft := .fin 0 } : BenchmarkBand) ::
      ({ categoryId := c.id, band := .HIGH, psqft := .fin 0 } : BenchmarkBand) :: acc) [],
    targetRanges := none }

/-- Witness for C8 at the all-zero benchmark. -/
theorem claim_C8_witness :
    computeImpliedMediumAllocationShares zeroBenchmark .SERVICES =
      .fin (1 / (VMX_CATEGORIES.length : ℚ)) :=
  claim_C8_equal_weight_fallback zeroBenchmark (by decide) .SERVICES

theorem JSNum.add_not_finite_right (x y : JSNum) (hy : y.isFinite = false) :
    (x.add y).isFinite = false := by
  cases x <;> cases y <;> simp_all [JSNum.add, JSNum.isFinite]

/-- The rational carried by a finite JSNum (0 for the non-finite
values); a proof-side projection. -/
def qOf : JSNum → ℚ
  | .fin q => q
  | _ => 0

theorem qOf_of_finite (x : JSNum) (h : x.isFinite = true) : x = .fin (qOf x) := by
  cases x <;> simp_all [JSNum.isFinite, qOf]

theorem foldl_cost_not_fin (l : List Interim) (i : JSNum) (hi : i.isFinite = false) :
    (l.foldl (fun s r => s.add r.cost) i).isFinite = false := by
  induction l generalizing i with
  | nil => exact hi
  | cons x xs ih =>
    rw [List.foldl_cons]
    exact ih _ (JSNum.add_not_finite_left i x.cost hi)

theorem foldl_cost_fin_mem (l : List Interim) :
    ∀ (i : JSNum) (t : ℚ), l.foldl (fun s r => s.add r.cost) i = .fin t →
      ∀ r ∈ l, r.cost.isFinite = true := by
  induction l with
  | nil => intro i t _ r hr; cases hr
  | cons x xs ih =>
    intro i t h r hr
    have hxfin : x.cost.isFinite = true := by
      by_contra hx
      have hx' : x.cost.isFinite = false := by
        revert hx; cases x.cost.isFinite <;> simp
      have := foldl_cost_not_fin xs (i.add x.cost) (JSNum.add_not_finite_right i x.cost hx')
      rw [List.foldl_cons] at h
      rw [h] at this
      simp [JSNum.isFinite] at this
    rcases List.mem_cons.mp hr with hr | hr
    · rw [hr]; exact hxfin
    · rw [List.foldl_cons] at h
      exact ih _ t h r hr

theorem foldl_cost_eval (l : List Interim) :
    ∀ a : ℚ, (∀ r ∈ l, r.cost.isFinite = true) →
      l.foldl (fun s r => s.add r.cost) (JSNum.fin a)
        = .fin (a + (l.map (fun r => qOf r.cost)).sum) := by
  induction l with
  | nil => intro a _; simp
  | cons x xs ih =>
    intro a hall
    have hx : x.cost = .fin (qOf x.cost) :=
      qOf_of_finite x.cost (hall x (List.mem_cons_self x xs))
    rw [List.foldl_cons]
    conv_lhs => rw [hx]
    rw [JSNum.add_fin, ih (a + qOf x.cost) (fun r hr => hall r (List.mem_cons_of_mem x hr))]
    simp only [List.map_cons, List.sum_cons]
    congr 1
    ring

theorem costSum_map_finish (l : List Interim) (T : JSNum) :
    ∀ i : JSNum,
      (l.map (finishCategory T)).foldl (fun s c => s.add c.cost) i
        = l.foldl (fun s r => s.add r.cost) i := by
  induction l with
  | nil => intro i; rfl
  | cons x xs ih =>
    intro i
    rw [List.map_cons, List.foldl_cons, List.foldl_cons]
    exact ih _

theorem pctSum_map_finish (l : List Interim) (t : ℚ) (ht : t ≠ 0) :
    (∀ r ∈ l, r.cost.isFinite = true) →
    ∀ a : ℚ,
      (l.map (finishCategory (.fin t))).foldl (fun s c => s.add c.pctOfTotal) (JSNum.fin a)
        = .fin (a + (l.map (fun r => qOf r.cost)).sum / t) := by
  induction l with
  | nil => intro _ a; simp
  | cons x xs ih =>
    intro hall a
    have hx : x.cost = .fin (qOf x.cost) :=
      qOf_of_finite x.cost (hall x (List.mem_cons_self x xs))
    have hpct : (finishCategory (.fin t) x).pctOfTotal = JSNum.fin (qOf x.cost / t) := by
      show x.cost.div (JSNum.fin t) = JSNum.fin (qOf x.cost / t)
      conv_lhs => rw [hx]
      exact JSNum.div_fin _ t ht
    rw [List.map_cons, List.foldl_cons, hpct, JSNum.add_fin,
      ih (fun r hr => hall r (List.mem_cons_of_mem x hr)) (a + qOf x.cost / t)]
    simp only [List.map_cons, List.sum_cons]
    congr 1
    field_simp
    ring

theorem mapMExcept_ok_length (f : α → Except VmxError β) :
    ∀ (l : List α) (ys : List β), mapMExcept f l = .ok ys → ys.length = l.length := by
  intro l
  induction l with
  | nil => intro ys h; cases h; rfl
  | cons x xs ih =>
    intro ys h
    unfold mapMExcept at h
    cases hx : f x with
    | error e => rw [hx] at h; exact Except.noConfusion h
    | ok y =>
      rw [hx] at h
      cases hxs : mapMExcept f xs with
      | error e => rw [hxs] at h; exact Except.noConfusion h
      | ok ys' =>
        rw [hxs] at h
        injection h with h
        rw [← h]
        simp [ih ys' hxs]

theorem mapMExcept_ok_mem (f : α → Except VmxError β) :
    ∀ (l : List α) (ys : List β), mapMExcept f l = .ok ys →
      ∀ x ∈ l, ∃ y ∈ ys, f x = .ok y := by
  intro l
  induction l with
  | nil => intro ys _ x hx; cases hx
  | cons z zs ih =>
    intro ys h x hx
    unfold mapMExcept at h
    cases hz : f z with
    | error e => rw [hz] at h; exact Except.noConfusion h
    | ok y =>
      rw [hz] at h
      cases hzs : mapMExcept f zs with
      | error e => rw [hzs] at h; exact Except.noConfusion h
      | ok ys' =>
        rw [hzs] at h
        injection h with h
        rcases List.mem_cons.mp hx with hx | hx
        · exact ⟨y, by rw [← h]; exact List.mem_cons_self y ys', by rw [hx]; exact hz⟩
        · obtain ⟨y', hy', hfy'⟩ := ih ys' hzs x hx
          exact ⟨y', by rw [← h]; exact List.mem_cons_of_mem y hy', hfy'⟩

theorem mapMExcept_error_mem (f : α → Except VmxError β) :
    ∀ (l : List α) (e : VmxError), mapMExcept f l = .error e → ∃ x ∈ l, f x = .error e := by
  intro l
  induction l with
  | nil => intro e h; exact Except.noConfusion h
  | cons z zs ih =>
    intro e h
    unfold mapMExcept at h
    cases hz : f z with
    | error e' =>
      rw [hz] at h
      injection h with h
      exact ⟨z, List.mem_cons_self z zs, by rw [hz, h]⟩
    | ok y =>
      rw [hz] at h
      cases hzs : mapMExcept f zs with
      | error e' =>
        rw [hzs] at h
        injection h with h
        obtain ⟨x, hx, hfx⟩ := ih e' hzs
        exact ⟨x, List.mem_cons_of_mem z hx, by rw [hfx, h]⟩
      | ok ys' => rw [hzs] at h; exact Except.noConfusion h

theorem resolveCategory_error_shape (areaSqft : JSNum) (benchmark : BenchmarkSet)
    (selections : List ScenarioSelection) (safeTargetRanges : List TargetRange)
    (cat : CategoryDef) (e : VmxError)
    (h : resolveCategory areaSqft benchmark selections safeTargetRanges cat = .error e) :
    e = .missingSelection cat.id ∨ ∃ b, e = .missingBand cat.id b := by
  unfold resolveCategory at h
  cases hsel : selectionByCat selections cat.id with
  | none =>
    rw [hsel] at h
    injection h with h
    exact Or.inl h.symm
  | some sel =>
    rw [hsel] at h
    have h2 : (match requireBand benchmark cat.id sel.band with
        | Except.error e' => (Except.error e' : Except VmxError Interim)
        | Except.ok base =>
          Except.ok { categoryId := cat.id, label := cat.label, band := sel.band,
                      psqftUsed := sel.overridePsqft.getD base.psqft,
                      cost := areaSqft.mul (sel.overridePsqft.getD base.psqft),
                      range := (safeTargetRanges.find?
                          (fun r : TargetRange => r.categoryId == some cat.id)).getD
                        (getTargetRangeForCategory benchmark cat.id) }) = .error e := h
    cases hrb : requireBand benchmark cat.id sel.band with
    | error e' =>
      rw [hrb] at h2
      injection h2 with h2
      unfold requireBand at hrb
      cases hfb : findBand benchmark cat.id sel.band with
      | none =>
        rw [hfb] at hrb
        injection hrb with hrb
        exact Or.inr ⟨sel.band, by rw [← h2, ← hrb]⟩
      | some b => rw [hfb] at hrb; exact Except.noConfusion hrb
    | ok base => rw [hrb] at h2; exact Except.noConfusion h2

theorem computeScenarioResult_ok_inv (p : ScenarioParams) (res : ScenarioResult)
    (h : computeScenarioResult p = .ok res) :
    ∃ interim,
      mapMExcept (resolveCategory p.areaSqft p.benchmark p.selections
        (ensureCompleteTargetRanges p.benchmark)) VMX_CATEGORIES = .ok interim ∧
      (!p.areaSqft.isFinite || JSNum.le p.areaSqft (.fin 0)) = false ∧
      JSNum.le (interim.foldl (fun s r => s.add r.cost) (JSNum.fin 0)) (.fin 0) = false ∧
      res = { areaSqft := p.areaSqft, currency := p.benchmark.currency,
              totalCost := interim.foldl (fun s r => s.add r.cost) (JSNum.fin 0),
              totalPsqft := (interim.foldl (fun s r => s.add r.cost) (JSNum.fin 0)).div
                p.areaSqft,
              categories := interim.map (finishCategory
                (interim.foldl (fun s r => s.add r.cost) (JSNum.fin 0))) } := by
  unfold computeScenarioResult at h
  by_cases hc1 : (!p.areaSqft.isFinite || JSNum.le p.areaSqft (.fin 0)) = true
  · rw [if_pos hc1] at h
    exact Except.noConfusion h
  · have hc1' : (!p.areaSqft.isFinite || JSNum.le p.areaSqft (.fin 0)) = false := by
      revert hc1
      cases !p.areaSqft.isFinite || JSNum.le p.areaSqft (.fin 0) <;> simp
    rw [if_neg hc1] at h
    cases hmap : mapMExcept (resolveCategory p.areaSqft p.benchmark p.selections
        (ensureCompleteTargetRanges p.benchmark)) VMX_CATEGORIES with
    | error e => rw [hmap] at h; exact Except.noConfusion h
    | ok interim =>
      rw [hmap] at h
      have h2 : (if JSNum.le (interim.foldl (fun s r => s.add r.cost) (JSNum.fin 0)) (.fin 0)
          then (.error .nonPositiveTotal : Except VmxError ScenarioResult)
          else .ok { areaSqft := p.areaSqft, currency := p.benchmark.currency,
                     totalCost := interim.foldl (fun s r => s.add r.cost) (JSNum.fin 0),
                     totalPsqft := (interim.foldl (fun s r => s.add r.cost)
                       (JSNum.fin 0)).div p.areaSqft,
                     categories := interim.map (finishCategory
                       (interim.foldl (fun s r => s.add r.cost) (JSNum.fin 0))) })
          = .ok res := h
      by_cases hc2 : JSNum.le (interim.foldl (fun s r => s.add r.cost) (JSNum.fin 0))
          (.fin 0) = true
      · rw [if_pos hc2] at h2
        exact Except.noConfusion h2
      · have hc2' : JSNum.le (interim.foldl (fun s r => s.add r.cost) (JSNum.fin 0))
            (.fin 0) = false := by
          revert hc2
          cases JSNum.le (interim.foldl (fun s r => s.add r.cost) (JSNum.fin 0)) (.fin 0) <;>
            simp
        rw [if_neg hc2] at h2
        injection h2 with h2
        exact ⟨interim, rfl, hc1', hc2', h2.symm⟩

/-- C1: For every call of `computeScenarioResult` that returns a result,
the result holds one `CategoryResult` per fixed category (seven of
them) and the sum of their `cost` fields equals the returned `totalCost`
exactly; moreover, whenever the total is an actual (finite) number —
which the non-positive-total guard then forces to be positive — the sum
of the `pctOfTotal` fields equals 1 within 1e-9 (exactly 1 in the
rational model). -/
theorem claim_C1_cost_conservation :
    ∀ (params : ScenarioParams) (res : ScenarioResult),
      computeScenarioResult params = .ok res →
      (res.categories.length = VMX_CATEGORIES.length ∧
       costSum res.categories = res.totalCost) ∧
      ∀ t : ℚ, res.totalCost = .fin t →
        0 < t ∧ ∃ q : ℚ, pctSum res.categories = .fin q ∧ |q - 1| ≤ 1 / 1000000000 := by
  intro p res hok
  obtain ⟨interim, hmap, _, hpos, hres⟩ := computeScenarioResult_ok_inv p res hok
  subst hres
  refine ⟨⟨?_, ?_⟩, ?_⟩
  · show (interim.map _).length = _
    rw [List.length_map]
    exact mapMExcept_ok_length _ VMX_CATEGORIES interim hmap
  · show costSum (interim.map _) = _
    unfold costSum
    exact costSum_map_finish interim _ (JSNum.fin 0)
  · intro t ht
    have htt : interim.foldl (fun s r => s.add r.cost) (JSNum.fin 0) = .fin t := ht
    have ht0 : 0 < t := by
      rw [htt] at hpos
      simpa using hpos
    have hall : ∀ r ∈ interim, r.cost.isFinite = true :=
      foldl_cost_fin_mem interim (JSNum.fin 0) t htt
    have heval := foldl_cost_eval interim 0 hall
    rw [htt] at heval
    have hts : t = 0 + (interim.map (fun r => qOf r.cost)).sum := JSNum.fin.inj heval
    refine ⟨ht0, 0 + (interim.map (fun r => qOf r.cost)).sum / t, ?_, ?_⟩
    · show pctSum (interim.map (finishCategory
          (interim.foldl (fun s r => s.add r.cost) (JSNum.fin 0)))) = _
      rw [htt]
      unfold pctSum
      exact pctSum_map_finish interim t (ne_of_gt ht0) hall 0
    · have : (interim.map (fun r => qOf r.cost)).sum = t := by linarith [hts]
      rw [this, div_self (ne_of_gt ht0)]
      norm_num

/-- The spec's concrete benchmark: MEDIUM unit costs
[50, 250, 500, 450, 250, 270, 180] over the seven categories. -/
def demoBenchmark : BenchmarkSet :=
  { id := "demo", name := "Demo", currency := "USD",
    bands := [
      { categoryId := .FACILITATING, band := .MEDIUM, psqft := .fin 50 },
      { categoryId := .SUBSTRUCTURE, band := .MEDIUM, psqft := .fin 250 },
      { categoryId := .SUPERSTRUCTURE, band := .MEDIUM, psqft := .fin 500 },
      { categoryId := .INTERNAL_FINISHES, band := .MEDIUM, psqft := .fin 450 },
      { categoryId := .FF_E, band := .MEDIUM, psqft := .fin 250 },
      { categoryId := .SERVICES, band := .MEDIUM, psqft := .fin 270 },
      { categoryId := .EXTERNAL_WORKS, band := .MEDIUM, psqft := .fin 180 }],
    targetRanges := none }

/-- One MEDIUM selection per category, no overrides. -/
def demoSelections : List ScenarioSelection :=
  VMX_CATEGORIES.map (fun c => { categoryId := c.id, band := .MEDIUM, overridePsqft := none })

def demoParams : ScenarioParams :=
  { areaSqft := .fin 10000, benchmark := demoBenchmark, selections := demoSelections }

/-- The scenario result of the demo parameters (the error branch is
unreachable; see the C1 witness). -/
def demoResult : ScenarioResult :=
  match computeScenarioResult demoParams with
  | .ok r => r
  | .error _ =>
    { areaSqft := .fin 0, currency := "", totalCost := .fin 0, totalPsqft := .fin 0,
      categories := [] }

/-- Witness for C1 at the spec's demo scenario (totalCost 19,500,000). -/
theorem claim_C1_witness :
    (demoResult.categories.length = VMX_CATEGORIES.length ∧
     costSum demoResult.categories = demoResult.totalCost) ∧
    0 < (19500000 : ℚ) ∧
    ∃ q : ℚ, pctSum demoResult.categories = .fin q ∧ |q - 1| ≤ 1 / 1000000000 := by
  have hok : computeScenarioResult demoParams = .ok demoResult := by with_unfolding_all rfl
  have ht : demoResult.totalCost = .fin 19500000 := by with_unfolding_all rfl
  obtain ⟨h1, h2⟩ := claim_C1_cost_conservation demoParams demoResult hok
  exact ⟨h1, h2 19500000 ht⟩

theorem JSNum.mul_fin (a b : ℚ) : (JSNum.fin a).mul (.fin b) = .fin (a * b) := rfl

theorem valid_area_no_invalid_error (p : ScenarioParams)
    (hfin : p.areaSqft.isFinite = true) (hlt : JSNum.lt (.fin 0) p.areaSqft = true) :
    computeScenarioResult p ≠ .error .invalidArea := by
  have hc : (!p.areaSqft.isFinite || JSNum.le p.areaSqft (.fin 0)) = false := by
    cases ha : p.areaSqft with
    | fin q =>
      rw [ha] at hlt
      have hq : 0 < q := by simpa using hlt
      simp [JSNum.le, JSNum.isFinite, not_le.mpr hq]
    | nan => rw [ha] at hfin; simp [JSNum.isFinite] at hfin
    | inf => rw [ha] at hfin; simp [JSNum.isFinite] at hfin
    | negInf => rw [ha] at hfin; simp [JSNum.isFinite] at hfin
  unfold computeScenarioResult
  rw [if_neg (by rw [hc]; simp)]
  cases hmap : mapMExcept (resolveCategory p.areaSqft p.benchmark p.selections
      (ensureCompleteTargetRanges p.benchmark)) VMX_CATEGORIES with
  | error e =>
    intro habs
    injection habs with habs
    obtain ⟨cat, _, hres⟩ := mapMExcept_error_mem _ VMX_CATEGORIES e hmap
    rcases resolveCategory_error_shape _ _ _ _ cat e hres with h | ⟨b, h⟩ <;>
      rw [h] at habs <;> exact VmxError.noConfusion habs
  | ok interim =>
    have h2eq : (match (Except.ok interim : Except VmxError (List Interim)) with
        | .error e => (.error e : Except VmxError ScenarioResult)
        | .ok interim =>
          if JSNum.le (interim.foldl (fun (s : JSNum) (r : Interim) => s.add r.cost) (JSNum.fin 0)) (.fin 0)
          then .error .nonPositiveTotal
          else .ok { areaSqft := p.areaSqft, currency := p.benchmark.currency,
                     totalCost := interim.foldl (fun (s : JSNum) (r : Interim) => s.add r.cost) (JSNum.fin 0),
                     totalPsqft := (interim.foldl (fun (s : JSNum) (r : Interim) => s.add r.cost)
                       (JSNum.fin 0)).div p.areaSqft,
                     categories := interim.map (finishCategory
                       (interim.foldl (fun (s : JSNum) (r : Interim) => s.add r.cost) (JSNum.fin 0))) })
        = (if JSNum.le (interim.foldl (fun (s : JSNum) (r : Interim) => s.add r.cost) (JSNum.fin 0)) (.fin 0)
          then .error .nonPositiveTotal
          else .ok { areaSqft := p.areaSqft, currency := p.benchmark.currency,
                     totalCost := interim.foldl (fun (s : JSNum) (r : Interim) => s.add r.cost) (JSNum.fin 0),
                     totalPsqft := (interim.foldl (fun (s : JSNum) (r : Interim) => s.add r.cost)
                       (JSNum.fin 0)).div p.areaSqft,
                     categories := interim.map (finishCategory
                       (interim.foldl (fun (s : JSNum) (r : Interim) => s.add r.cost) (JSNum.fin 0))) }) := rfl
    rw [h2eq]
    by_cases hc2 : JSNum.le (interim.foldl (fun s r => s.add r.cost) (JSNum.fin 0))
        (.fin 0) = true
    · rw [if_pos hc2]
      intro habs
      injection habs with habs
      exact VmxError.noConfusion habs
    · rw [if_neg hc2]
      intro habs
      exact Except.noConfusion habs

/-- C4: `computeScenarioResult` fails with the invalid-area error
exactly when the area is not a finite positive number: for every
parameter record, the area being non-finite or non-positive is
equivalent to the computation returning the invalid-area error (so with
any finite positive area that check passes and the invalid-area error
cannot be produced; with area 0 it is produced). -/
theorem claim_C4_invalid_area_iff :
    ∀ params : ScenarioParams,
      (¬ (params.areaSqft.isFinite = true ∧ JSNum.lt (.fin 0) params.areaSqft = true)) ↔
        computeScenarioResult params = .error .invalidArea := by
  intro p
  constructor
  · intro hinv
    have hc : (!p.areaSqft.isFinite || JSNum.le p.areaSqft (.fin 0)) = true := by
      cases ha : p.areaSqft with
      | fin q =>
        rw [ha] at hinv
        have hq : ¬ 0 < q := by
          intro h0
          exact hinv ⟨rfl, by simpa using h0⟩
        simp [JSNum.le, not_lt.mp hq]
      | nan => simp [JSNum.isFinite]
      | inf => simp [JSNum.isFinite]
      | negInf => simp [JSNum.isFinite]
    unfold computeScenarioResult
    rw [if_pos hc]
  · intro herr hval
    exact valid_area_no_invalid_error p hval.1 hval.2 herr

/-- C5: Whenever the area check passes and every category resolves (a
selection and a benchmark band exist for each), a non-positive sum of
the per-category costs makes `computeScenarioResult` fail with the
non-positive-total error, producing no result. -/
theorem claim_C5_non_positive_total :
    ∀ (params : ScenarioParams) (interim : List Interim),
      (!params.areaSqft.isFinite || JSNum.le params.areaSqft (.fin 0)) = false →
      mapMExcept (resolveCategory params.areaSqft params.benchmark params.selections
        (ensureCompleteTargetRanges params.benchmark)) VMX_CATEGORIES = .ok interim →
      JSNum.le (interim.foldl (fun s r => s.add r.cost) (JSNum.fin 0)) (.fin 0) = true →
      computeScenarioResult params = .error .nonPositiveTotal := by
  intro p interim harea hmap hcost
  unfold computeScenarioResult
  rw [if_neg (by rw [harea]; simp), hmap]
  show (if JSNum.le (interim.foldl (fun s r => s.add r.cost) (JSNum.fin 0)) (.fin 0)
      then (.error .nonPositiveTotal : Except VmxError ScenarioResult)
      else .ok { areaSqft := p.areaSqft, currency := p.benchmark.currency,
                 totalCost := interim.foldl (fun s r => s.add r.cost) (JSNum.fin 0),
                 totalPsqft := (interim.foldl (fun s r => s.add r.cost)
                   (JSNum.fin 0)).div p.areaSqft,
                 categories := interim.map (finishCategory
                   (interim.foldl (fun s r => s.add r.cost) (JSNum.fin 0))) })
      = .error .nonPositiveTotal
  rw [if_pos hcost]

def zeroParams : ScenarioParams :=
  { areaSqft := .fin 10000, benchmark := zeroBenchmark, selections := demoSelections }

/-- The interim list of the all-zero scenario (the error branch is
unreachable; see the C5 witness). -/
def zeroInterim : List Interim :=
  match mapMExcept (resolveCategory zeroParams.areaSqft zeroParams.benchmark
      zeroParams.selections (ensureCompleteTargetRanges zeroParams.benchmark))
      VMX_CATEGORIES with
  | .ok l => l
  | .error _ => []

/-- Witness for C5: the all-zero benchmark passes the area, selection
and band checks but fails with the non-positive-total error. -/
theorem claim_C5_witness :
    computeScenarioResult zeroParams = .error .nonPositiveTotal :=
  claim_C5_non_positive_total zeroParams zeroInterim (by with_unfolding_all rfl)
    (by with_unfolding_all rfl) (by with_unfolding_all rfl)

theorem resolveCategory_ok_inv (areaSqft : JSNum) (benchmark : BenchmarkSet)
    (selections : List ScenarioSelection) (safeTargetRanges : List TargetRange)
    (cat : CategoryDef) (sel : ScenarioSelection) (base : BenchmarkBand) (y : Interim)
    (hsel : selectionByCat selections cat.id = some sel)
    (hband : findBand benchmark cat.id sel.band = some base)
    (h : resolveCategory areaSqft benchmark selections safeTargetRanges cat = .ok y) :
    y.categoryId = cat.id ∧ y.psqftUsed = sel.overridePsqft.getD base.psqft ∧
    y.cost = areaSqft.mul (sel.overridePsqft.getD base.psqft) := by
  unfold resolveCategory at h
  rw [hsel] at h
  have hrb : requireBand benchmark cat.id sel.band = .ok base := by
    unfold requireBand
    rw [hband]
  have h2 : (match requireBand benchmark cat.id sel.band with
      | Except.error e' => (Except.error e' : Except VmxError Interim)
      | Except.ok base =>
        Except.ok { categoryId := cat.id, label := cat.label, band := sel.band,
                    psqftUsed := sel.overridePsqft.getD base.psqft,
                    cost := areaSqft.mul (sel.overridePsqft.getD base.psqft),
                    range := (safeTargetRanges.find?
                        (fun r : TargetRange => r.categoryId == some cat.id)).getD
                      (getTargetRangeForCategory benchmark cat.id) }) = .ok y := h
  rw [hrb] at h2
  injection h2 with h2
  rw [← h2]
  exact ⟨rfl, rfl, rfl⟩

/-- C10: A selection override of exactly 0 is honored by
`computeScenarioResult`: the category's resolved unit cost and cost are
both 0 (resolution uses nullish coalescing, so only an absent override
falls back to the band's unit cost); and even when an override is
supplied, the selected (category, band) pair must still exist in the
benchmark, else resolution fails with the missing-band error. -/
theorem claim_C10_override_zero :
    (∀ (params : ScenarioParams) (res : ScenarioResult) (cid : VmxCategoryId)
        (sel : ScenarioSelection),
      computeScenarioResult params = .ok res →
      selectionByCat params.selections cid = some sel →
      sel.overridePsqft = some (.fin 0) →
      ∃ cr ∈ res.categories, cr.categoryId = cid ∧ cr.psqftUsed = .fin 0 ∧
        cr.cost = .fin 0) ∧
    (∀ (areaSqft : JSNum) (benchmark : BenchmarkSet)
        (selections : List ScenarioSelection) (safeTargetRanges : List TargetRange)
        (cat : CategoryDef) (sel : ScenarioSelection),
      selectionByCat selections cat.id = some sel →
      findBand benchmark cat.id sel.band = none →
      resolveCategory areaSqft benchmark selections safeTargetRanges cat =
        .error (.missingBand cat.id sel.band)) := by
  constructor
  · intro p res cid sel hok hsel hov
    obtain ⟨interim, hmap, harea, _, hres⟩ := computeScenarioResult_ok_inv p res hok
    have hfin : p.areaSqft.isFinite = true := by
      cases hfb : p.areaSqft.isFinite
      · rw [hfb] at harea; simp at harea
      · rfl
    have haq : p.areaSqft = .fin (qOf p.areaSqft) := qOf_of_finite p.areaSqft hfin
    have hcat : ∃ cd ∈ VMX_CATEGORIES, cd.id = cid := by cases cid <;> decide
    obtain ⟨cd, hcdmem, hcdid⟩ := hcat
    obtain ⟨y, hy, hresolve⟩ := mapMExcept_ok_mem _ VMX_CATEGORIES interim hmap cd hcdmem
    rw [← hcdid] at hsel
    have hband : ∃ base, findBand p.benchmark cd.id sel.band = some base := by
      by_contra hnone
      push_neg at hnone
      have hfbnone : findBand p.benchmark cd.id sel.band = none := by
        cases hfb : findBand p.benchmark cd.id sel.band with
        | none => rfl
        | some b => exact absurd hfb (hnone b)
      unfold resolveCategory at hresolve
      rw [hsel] at hresolve
      have hrb : requireBand p.benchmark cd.id sel.band =
          .error (.missingBand cd.id sel.band) := by
        unfold requireBand
        rw [hfbnone]
      have h2 : (match requireBand p.benchmark cd.id sel.band with
          | Except.error e' => (Except.error e' : Except VmxError Interim)
          | Except.ok base =>
            Except.ok { categoryId := cd.id, label := cd.label, band := sel.band,
                        psqftUsed := sel.overridePsqft.getD base.psqft,
                        cost := p.areaSqft.mul (sel.overridePsqft.getD base.psqft),
                        range := ((ensureCompleteTargetRanges p.benchmark).find?
                            (fun r : TargetRange => r.categoryId == some cd.id)).getD
                          (getTargetRangeForCategory p.benchmark cd.id) }) = .ok y :=
        hresolve
      rw [hrb] at h2
      exact Except.noConfusion h2
    obtain ⟨base, hbase⟩ := hband
    obtain ⟨hyid, hyused, hycost⟩ :=
      resolveCategory_ok_inv p.areaSqft p.benchmark p.selections
        (ensureCompleteTargetRanges p.benchmark) cd sel base y hsel hbase hresolve
    rw [hov] at hyused hycost
    simp only [Option.getD_some] at hyused hycost
    refine ⟨finishCategory (interim.foldl (fun s r => s.add r.cost) (JSNum.fin 0)) y,
      ?_, ?_, ?_, ?_⟩
    · rw [hres]
      exact List.mem_map_of_mem _ hy
    · show y.categoryId = cid
      rw [hyid, hcdid]
    · show y.psqftUsed = JSNum.fin 0
      rw [hyused]
    · show y.cost = JSNum.fin 0
      rw [hycost, haq, JSNum.mul_fin]
      norm_num
  · intro areaSqft benchmark selections safeTargetRanges cat sel hsel hfb
    unfold resolveCategory
    rw [hsel]
    have hrb : requireBand benchmark cat.id sel.band =
        .error (.missingBand cat.id sel.band) := by
      unfold requireBand
      rw [hfb]
    show (match requireBand benchmark cat.id sel.band with
        | Except.error e' => (Except.error e' : Except VmxError Interim)
        | Except.ok base =>
          Except.ok { categoryId := cat.id, label := cat.label, band := sel.band,
                      psqftUsed := sel.overridePsqft.getD base.psqft,
                      cost := areaSqft.mul (sel.overridePsqft.getD base.psqft),
                      range := (safeTargetRanges.find?
                          (fun r : TargetRange => r.categoryId == some cat.id)).getD
                        (getTargetRangeForCategory benchmark cat.id) })
        = .error (.missingBand cat.id sel.band)
    rw [hrb]

/-- Selections with a 0 override on the first category. -/
def c10Selections : List ScenarioSelection := [
  { categoryId := .FACILITATING, band := .MEDIUM, overridePsqft := some (.fin 0) },
  { categoryId := .SUBSTRUCTURE, band := .MEDIUM, overridePsqft := none },
  { categoryId := .SUPERSTRUCTURE, band := .MEDIUM, overridePsqft := none },
  { categoryId := .INTERNAL_FINISHES, band := .MEDIUM, overridePsqft := none },
  { categoryId := .FF_E, band := .MEDIUM, overridePsqft := none },
  { categoryId := .SERVICES, band := .MEDIUM, overridePsqft := none },
  { categoryId := .EXTERNAL_WORKS, band := .MEDIUM, overridePsqft := none }]

def c10Params : ScenarioParams :=
  { areaSqft := .fin 10000, benchmark := demoBenchmark, selections := c10Selections }

/-- The scenario result of the override-0 parameters (the error branch
is unreachable; see the C10 witness). -/
def c10Result : ScenarioResult :=
  match computeScenarioResult c10Params with
  | .ok r => r
  | .error _ =>
    { areaSqft := .fin 0, currency := "", totalCost := .fin 0, totalPsqft := .fin 0,
      categories := [] }

/-- Witness for C10: the 0 override yields a 0 unit cost and 0 cost for
its category in a concrete scenario, and a supplied override does not
bypass the missing-band check on an empty-band benchmark. -/
theorem claim_C10_witness :
    (∃ cr ∈ c10Result.categories, cr.categoryId = VmxCategoryId.FACILITATING ∧
      cr.psqftUsed = .fin 0 ∧ cr.cost = .fin 0) ∧
    resolveCategory (.fin 10000) c2WitnessBenchmark c10Selections []
        { id := .FACILITATING, label := "Site Prep & Infrastructure", sortOrder := 1 } =
      .error (.missingBand .FACILITATING .MEDIUM) := by
  constructor
  · exact claim_C10_override_zero.1 c10Params c10Result .FACILITATING
      { categoryId := .FACILITATING, band := .MEDIUM, overridePsqft := some (.fin 0) }
      (by with_unfolding_all rfl) (by decide) rfl
  · exact claim_C10_override_zero.2 (.fin 10000) c2WitnessBenchmark c10Selections []
      { id := .FACILITATING, label := "Site Prep & Infrastructure", sortOrder := 1 }
      { categoryId := .FACILITATING, band := .MEDIUM, overridePsqft := some (.fin 0) }
      (by decide) (by decide)

/-- Witness for C4: area 0 produces exactly the invalid-area error. -/
theorem claim_C4_witness :
    computeScenarioResult
        { areaSqft := .fin 0, benchmark := demoBenchmark, selections := demoSelections } =
      .error .invalidArea :=
  (claim_C4_invalid_area_iff
    { areaSqft := .fin 0, benchmark := demoBenchmark, selections := demoSelections }).mp
    (by decide)
